import Mathlib

/-!
# Verification of the `Trajectory` class (flight repository)

Shallow embedding of `src/controllers/TrajectoryLibrary/Trajectory.cpp`.

Modelling conventions:

* C++ `double` arithmetic is embedded as exact rational (`ℚ`) arithmetic.
  The one place the source narrows to single precision
  (`float remainder = fmod(t, dt_)` in `GetIndexFromTime`) is embedded
  exactly as well; `0.5f * dt_` promotes back to `double` and equals
  `(1/2) * dt` exactly, so only the rounding of `remainder` itself is
  idealised.
* A parsed CSV file is a header field count plus the numeric data rows
  (the CSV parser, `CsvParser_*`, is an external collaborator that yields a
  dense rectangular numeric table; `atof` of each field is the rational in
  the model).  A file whose header cannot be read (unreadable path or
  malformed header, `CsvParser_getHeader == NULL`) is `none`.
* `exit(1)` paths are embedded as `Except.error` values carrying the data
  the diagnostic prints (offending row and residual for the spacing check,
  expected/actual column counts and the four row counts for the schema
  checks).  The header-`NULL` path in `LoadMatrixFromCSV` does *not* exit
  in the source — it prints the parser message and returns — and is
  embedded accordingly as a success that leaves the matrix empty.
* `std::cout` logging is embedded as a `List LogEvent` so that the effect
  of the `quiet` flag is part of the model.  `std::cerr` output on the
  `exit(1)` paths is subsumed by the error payloads.
* The parse of the trailing 5-character trajectory number (`std::stoi`) is
  external to every claim under study and is not modelled.
-/

namespace Flight

/-- `std::numeric_limits<double>::epsilon()`, the machine epsilon of an IEEE
double, `2^-52`; the spacing tolerance in `LoadMatrixFromCSV` is `5 * eps`. -/
def eps : ℚ := 1 / 2 ^ 52

/-- C++ `double` → `int` conversion truncates toward zero. -/
def cTrunc (q : ℚ) : ℤ := if 0 ≤ q then ⌊q⌋ else ⌈q⌉

/-- C `fmod(t, d)`: `t - trunc(t/d) * d` (the remainder keeps the sign of
`t`). -/
def fmod (t d : ℚ) : ℚ := t - cTrunc (t / d) * d

/-- A CSV file as the external parser delivers it: the number of header
fields (which sizes the matrix columns) and the numeric data rows. -/
structure CsvFile where
  headerCols : ℕ
  rows : List (List ℚ)
deriving DecidableEq

/-- `Eigen::MatrixXd` as filled by `LoadMatrixFromCSV`: the data rows and
the column count taken from the header. -/
structure MatrixXd where
  rows : List (List ℚ)
  nCols : ℕ
deriving DecidableEq

/-- A default-constructed `Eigen::MatrixXd` is 0 × 0. -/
def MatrixXd.empty : MatrixXd := ⟨[], 0⟩

/-- `matrix(r, 0)`: the timestamp stored in column 0 of row `r`. -/
def timeAt (m : List (List ℚ)) (r : ℕ) : ℚ := (m.getD r []).getD 0 0

/-- The `exit(1)` diagnostics of `LoadTrajectory` / `LoadMatrixFromCSV`,
with the data each message prints. -/
inductive LoadError where
  /-- Line 120-124: non-constant dt at `row`, with the printed residual
  `matrix(row,0) - matrix(row-1,0) - dt_`. -/
  | spacingError (row : ℕ) (residual : ℚ)
  /-- Lines 48-56: wrong column count in the named table; carries the
  expected and the found column counts the message prints. -/
  | schemaErrorCols (table : String) (expectedCols : ℤ) (actualCols : ℕ)
  /-- Lines 58-66: inconsistent row counts; carries all four printed counts. -/
  | schemaErrorRows (xRows uRows kRows affineRows : ℕ)
deriving DecidableEq

/-- `std::cout` output events (the `quiet` flag suppresses the first two). -/
inductive LogEvent where
  | loadingTrajectory (fp : String)
  | loadingFile (fname : String)
  /-- `printf("%s\n", CsvParser_getErrorMessage(csvparser))` on a NULL
  header; not suppressed by `quiet`. -/
  | parserErrorMsg (fname : String)
  /-- `std::cout << matrix` just before `exit(1)` on a spacing error. -/
  | matrixDump (rows : List (List ℚ))
deriving DecidableEq

/-- The body of the row loop of `LoadMatrixFromCSV` at row index `r`:
at `r = 1` set `dt_ = matrix(1,0) - matrix(0,0)`; at `r > 1` flag a
spacing error when `matrix(r,0) - matrix(r-1,0) - dt_ > 5 * eps`. -/
def rowStep (m : List (List ℚ)) (r : ℕ) (dt : ℚ) : Except LoadError ℚ :=
  if r = 1 then .ok (timeAt m 1 - timeAt m 0)
  else if 1 < r then
    if timeAt m r - timeAt m (r - 1) - dt > 5 * eps then
      .error (.spacingError r (timeAt m r - timeAt m (r - 1) - dt))
    else .ok dt
  else .ok dt

/-- The row loop of `LoadMatrixFromCSV` from row `r` on, for `fuel`
remaining rows, threading the member `dt_`. -/
def checkFrom (m : List (List ℚ)) (dt : ℚ) (r fuel : ℕ) : Except LoadError ℚ :=
  match fuel with
  | 0 => .ok dt
  | fuel' + 1 =>
    match rowStep m r dt with
    | .error e => .error e
    | .ok dt' => checkFrom m dt' (r + 1) fuel'

/-- `Trajectory::LoadMatrixFromCSV` without the logging: fills the matrix
from the file and runs the constant-spacing check, threading `dt_`.
A NULL header (unreadable file) prints and returns, leaving the
default-constructed matrix — hence `.ok` with an empty matrix. -/
def loadMatrixPure (file : Option CsvFile) (dtIn : ℚ) :
    Except LoadError (MatrixXd × ℚ) :=
  match file with
  | none => .ok (MatrixXd.empty, dtIn)
  | some f =>
    match checkFrom f.rows dtIn 0 f.rows.length with
    | .error e => .error e
    | .ok dtOut => .ok (⟨f.rows, f.headerCols⟩, dtOut)

/-- `Trajectory::LoadMatrixFromCSV` with its `std::cout` traffic: the
"Loading `file`" line guarded by `quiet`, the parser message on a NULL
header, and the matrix dump printed before a spacing `exit(1)`. -/
def LoadMatrixFromCSV (file : Option CsvFile) (dtIn : ℚ) (fname : String)
    (quiet : Bool) : Except LoadError (MatrixXd × ℚ) × List LogEvent :=
  let log0 : List LogEvent := if quiet then [] else [.loadingFile fname]
  match file with
  | none => (.ok (MatrixXd.empty, dtIn), log0 ++ [.parserErrorMsg fname])
  | some f =>
    match checkFrom f.rows dtIn 0 f.rows.length with
    | .error e => (.error e, log0 ++ [.matrixDump f.rows])
    | .ok dtOut => (.ok (⟨f.rows, f.headerCols⟩, dtOut), log0)

/-- The state of a `Trajectory` object after `LoadTrajectory`:
`xpoints_`, `upoints_`, `kpoints_`, `affine_points_`, the optional
`xpoints_rollout_` (present exactly when the rollout load ran),
`dimension_`, `udimension_` and `dt_`. -/
structure Trajectory where
  xpoints : MatrixXd
  upoints : MatrixXd
  kpoints : MatrixXd
  affine_points : MatrixXd
  xpoints_rollout : Option MatrixXd
  dimension : ℤ
  udimension : ℤ
  dt : ℚ
deriving DecidableEq

/-- Modelled from the spec: `Trajectory::IsTimeInvariant` is declared in
`Trajectory.hpp`, a header that is not among the provided sources.
Spec §4.1: "a trajectory is *time-invariant* if and only if every row of
the gain table is numerically identical to every other row". -/
def IsTimeInvariant (kpoints : MatrixXd) : Bool :=
  kpoints.rows.all fun r => kpoints.rows.all fun s => r == s

/-- The three schema checks of `LoadTrajectory` (lines 48-66), in source
order, on the four loaded matrices: gain-table column count, affine-table
column count, and the four-way row-count agreement.  `none` means all
three pass. -/
def schemaChecks (mx mu mk ma : MatrixXd) : Option LoadError :=
  if (mk.nCols : ℤ) - 1 ≠ ((mx.nCols : ℤ) - 1) * ((mu.nCols : ℤ) - 1) then
    some (.schemaErrorCols "-controller.csv"
      (((mx.nCols : ℤ) - 1) * ((mu.nCols : ℤ) - 1) + 1) mk.nCols)
  else if (ma.nCols : ℤ) - 1 ≠ (mu.nCols : ℤ) - 1 then
    some (.schemaErrorCols "-affine.csv" ((mu.nCols : ℤ) - 1 + 1) ma.nCols)
  else if mx.rows.length ≠ mu.rows.length ∨
      mx.rows.length ≠ mk.rows.length ∨
      mx.rows.length ≠ ma.rows.length then
    some (.schemaErrorRows mx.rows.length mu.rows.length
      mk.rows.length ma.rows.length)
  else none

/-- `Trajectory::LoadTrajectory` without the logging.  A filesystem `fs`
maps a path to the parsed file (or `none` for a NULL header).  Loads the
four required tables in source order, threading `dt_` (which the
constructor set to 0), derives `dimension_` and `udimension_` from the
column counts, runs the schema checks, and loads the rollout table exactly
when `IsTimeInvariant` holds; an `exit(1)` anywhere aborts the load. -/
def LoadTrajectoryPure (fs : String → Option CsvFile) (fp : String) :
    Except LoadError Trajectory :=
  (loadMatrixPure (fs (fp ++ "-x.csv")) 0).bind fun rx =>
  (loadMatrixPure (fs (fp ++ "-u.csv")) rx.2).bind fun ru =>
  (loadMatrixPure (fs (fp ++ "-controller.csv")) ru.2).bind fun rk =>
  (loadMatrixPure (fs (fp ++ "-affine.csv")) rk.2).bind fun ra =>
  match schemaChecks rx.1 ru.1 rk.1 ra.1 with
  | some e => .error e
  | none =>
    if IsTimeInvariant rk.1 then
      (loadMatrixPure (fs (fp ++ "-rollout.csv")) ra.2).bind fun rr =>
        .ok ⟨rx.1, ru.1, rk.1, ra.1, some rr.1,
          (rx.1.nCols : ℤ) - 1, (ru.1.nCols : ℤ) - 1, rr.2⟩
    else
      .ok ⟨rx.1, ru.1, rk.1, ra.1, none,
        (rx.1.nCols : ℤ) - 1, (ru.1.nCols : ℤ) - 1, ra.2⟩

/-- Sequencing of one logged load step with the rest of `LoadTrajectory`:
an error aborts (the process exits) keeping the output so far; a success
continues, accumulating the output. -/
def andThen {α : Type} (p : Except LoadError α × List LogEvent)
    (k : α → Except LoadError Trajectory × List LogEvent) :
    Except LoadError Trajectory × List LogEvent :=
  match p.1 with
  | .error e => (.error e, p.2)
  | .ok r => ((k r).1, p.2 ++ (k r).2)

/-- `Trajectory::LoadTrajectory` with its `std::cout` traffic. -/
def LoadTrajectory (fs : String → Option CsvFile) (fp : String)
    (quiet : Bool) : Except LoadError Trajectory × List LogEvent :=
  let log0 : List LogEvent := if quiet then [] else [.loadingTrajectory fp]
  (fun p => (p.1, log0 ++ p.2)) <|
  andThen (LoadMatrixFromCSV (fs (fp ++ "-x.csv")) 0 (fp ++ "-x.csv") quiet)
    fun rx =>
  andThen (LoadMatrixFromCSV (fs (fp ++ "-u.csv")) rx.2 (fp ++ "-u.csv") quiet)
    fun ru =>
  andThen (LoadMatrixFromCSV (fs (fp ++ "-controller.csv")) ru.2
      (fp ++ "-controller.csv") quiet) fun rk =>
  andThen (LoadMatrixFromCSV (fs (fp ++ "-affine.csv")) rk.2
      (fp ++ "-affine.csv") quiet) fun ra =>
  match schemaChecks rx.1 ru.1 rk.1 ra.1 with
  | some e => (.error e, [])
  | none =>
    if IsTimeInvariant rk.1 then
      andThen (LoadMatrixFromCSV (fs (fp ++ "-rollout.csv")) ra.2
          (fp ++ "-rollout.csv") quiet) fun rr =>
        (.ok ⟨rx.1, ru.1, rk.1, ra.1, some rr.1,
          (rx.1.nCols : ℤ) - 1, (ru.1.nCols : ℤ) - 1, rr.2⟩, [])
    else
      (.ok ⟨rx.1, ru.1, rk.1, ra.1, none,
        (rx.1.nCols : ℤ) - 1, (ru.1.nCols : ℤ) - 1, ra.2⟩, [])

/-- `Trajectory::GetIndexFromTime` on the chosen table `m` (the state
table, or the rollout table when `use_rollout`): clamp below `t0` to 0 and
above `tf` to the last row index, otherwise
`num_dts = int(t / dt)` (+1 when `fmod(t, dt) > 0.5 * dt`) plus
`starting_dts = int(t0 / dt)`. -/
def GetIndexFromTimeCore (m : List (List ℚ)) (dt t : ℚ) : ℤ :=
  let t0 := timeAt m 0
  let tf := timeAt m (m.length - 1)
  if t < t0 then 0
  else if t > tf then (m.length : ℤ) - 1
  else
    let num_dts : ℤ := cTrunc (t / dt)
    let remainder : ℚ := fmod t dt
    let num_dts2 : ℤ := if remainder > (1 / 2) * dt then num_dts + 1 else num_dts
    let starting_dts : ℤ := cTrunc (t0 / dt)
    num_dts2 + starting_dts

/-- `Trajectory::GetIndexFromTime` on a loaded trajectory.  An unloaded
`xpoints_rollout_` member is the default-constructed empty matrix. -/
def GetIndexFromTime (traj : Trajectory) (t : ℚ) (use_rollout : Bool) : ℤ :=
  if use_rollout then
    GetIndexFromTimeCore (traj.xpoints_rollout.getD MatrixXd.empty).rows traj.dt t
  else
    GetIndexFromTimeCore traj.xpoints.rows traj.dt t

/-- `Eigen` `vec.segment(start, len)`. -/
def segment (v : List ℚ) (start len : ℕ) : List ℚ := (v.drop start).take len

/-- `Trajectory::GetGainMatrix`: the `udimension_ × dimension_` matrix whose
row `i` is `k_row.segment(i * dimension_ + 1, dimension_)` of the gain-table
row at `GetIndexFromTime(t)`. -/
def GetGainMatrix (traj : Trajectory) (t : ℚ) : List (List ℚ) :=
  let index := GetIndexFromTime traj t false
  let k_row := traj.kpoints.rows.getD index.toNat []
  (List.range traj.udimension.toNat).map fun i =>
    segment k_row (i * traj.dimension.toNat + 1) traj.dimension.toNat

/-! ## Concrete fixtures used by counterexamples and witnesses -/

/-- A filesystem from an association list of file names. -/
def fsOf (l : List (String × CsvFile)) : String → Option CsvFile :=
  fun s => (l.find? fun p => p.1 == s).map Prod.snd

/-- A 2-row trajectory whose timestamps start at `t0 = 1/10 ≠ 0`
(`dt = 1/20`); every table passes every load-time check. -/
def fs1 : String → Option CsvFile :=
  fsOf [("aaaaa-x.csv", ⟨2, [[1/10, 0], [3/20, 0]]⟩),
        ("aaaaa-u.csv", ⟨2, [[1/10, 1], [3/20, 1]]⟩),
        ("aaaaa-controller.csv", ⟨2, [[1/10, 5], [3/20, 6]]⟩),
        ("aaaaa-affine.csv", ⟨2, [[1/10, 0], [3/20, 0]]⟩)]

/-- The `Trajectory` that loading `fs1` produces. -/
def traj1 : Trajectory :=
  ⟨⟨[[1/10, 0], [3/20, 0]], 2⟩, ⟨[[1/10, 1], [3/20, 1]], 2⟩,
   ⟨[[1/10, 5], [3/20, 6]], 2⟩, ⟨[[1/10, 0], [3/20, 0]], 2⟩,
   none, 1, 1, 1/20⟩

/-- A 3-row trajectory whose timestamps are `0, 1/20, 1/10` (`t0 = 0`,
`dt = 1/20`); every table passes every load-time check. -/
def fs3 : String → Option CsvFile :=
  fsOf [("bbbbb-x.csv", ⟨2, [[0, 0], [1/20, 0], [1/10, 0]]⟩),
        ("bbbbb-u.csv", ⟨2, [[0, 1], [1/20, 1], [1/10, 1]]⟩),
        ("bbbbb-controller.csv", ⟨2, [[0, 5], [1/20, 6], [1/10, 7]]⟩),
        ("bbbbb-affine.csv", ⟨2, [[0, 0], [1/20, 0], [1/10, 0]]⟩)]

/-- The `Trajectory` that loading `fs3` produces. -/
def traj3 : Trajectory :=
  ⟨⟨[[0, 0], [1/20, 0], [1/10, 0]], 2⟩, ⟨[[0, 1], [1/20, 1], [1/10, 1]], 2⟩,
   ⟨[[0, 5], [1/20, 6], [1/10, 7]], 2⟩, ⟨[[0, 0], [1/20, 0], [1/10, 0]], 2⟩,
   none, 1, 1, 1/20⟩

/-- The spacing-scenario state table of the spec: timestamps
`[0, 0.05, 0.1, 0.2]`, so the spacing inferred from rows 0 and 1 is
`dt = 0.05` and row 3 breaks it with residual `0.05`. -/
def fscen : CsvFile := ⟨1, [[0], [1/20], [1/10], [1/5]]⟩

/-- A filesystem whose state table is the spacing-scenario table. -/
def fs4 : String → Option CsvFile := fsOf [("ccccc-x.csv", fscen)]

/-- A table whose timestamps `[0, 1, 0]` *shrink* by 2 at row 2: the
deviation from `dt = 1` has magnitude 2 but its signed residual is -2. -/
def fneg : CsvFile := ⟨1, [[0], [1], [0]]⟩

/-- A filesystem whose `-x.csv` is unreadable (NULL header) while the
other three tables are header-only files with a single column. -/
def fs8 : String → Option CsvFile :=
  fsOf [("ddddd-u.csv", ⟨1, []⟩),
        ("ddddd-controller.csv", ⟨1, []⟩),
        ("ddddd-affine.csv", ⟨1, []⟩)]

/-- The `Trajectory` that loading `fs8` produces: the unreadable state
table was silently skipped, every schema check passes (`dimension_ = -1`,
`udimension_ = 0`), and the (also unreadable) rollout table is "loaded". -/
def traj8 : Trajectory :=
  ⟨MatrixXd.empty, ⟨[], 1⟩, ⟨[], 1⟩, ⟨[], 1⟩, some MatrixXd.empty, -1, 0, 0⟩

/-- A trajectory whose gain table has a wrong column count: `stateDim = 1`,
`controlDim = 1`, but the gain table has 3 columns instead of 2. -/
def fs5 : String → Option CsvFile :=
  fsOf [("eeeee-x.csv", ⟨2, [[0, 0]]⟩),
        ("eeeee-u.csv", ⟨2, [[0, 1]]⟩),
        ("eeeee-controller.csv", ⟨3, [[0, 5, 6]]⟩),
        ("eeeee-affine.csv", ⟨2, [[0, 0]]⟩)]

/-! ## Basic reduction lemmas for the load pipeline -/

@[simp]
theorem exceptBind_ok {ε α β : Type} (a : α) (f : α → Except ε β) :
    (Except.ok a : Except ε α).bind f = f a := rfl

@[simp]
theorem exceptBind_error {ε α β : Type} (e : ε) (f : α → Except ε β) :
    (Except.error e : Except ε α).bind f = .error e := rfl

theorem exceptBind_congr {ε α β : Type} {x : Except ε α}
    {f g : α → Except ε β} (h : ∀ a, f a = g a) : x.bind f = x.bind g := by
  cases x <;> simp [Except.bind, h]

@[simp]
theorem andThen_ok {α : Type} (r : α) (l : List LogEvent)
    (k : α → Except LoadError Trajectory × List LogEvent) :
    andThen (Except.ok r, l) k = ((k r).1, l ++ (k r).2) := rfl

@[simp]
theorem andThen_error {α : Type} (e : LoadError) (l : List LogEvent)
    (k : α → Except LoadError Trajectory × List LogEvent) :
    andThen (Except.error e, l) k = (Except.error e, l) := rfl

theorem andThen_fst {α : Type} (p : Except LoadError α × List LogEvent)
    (k : α → Except LoadError Trajectory × List LogEvent) :
    (andThen p k).1 = p.1.bind fun r => (k r).1 := by
  rcases p with ⟨res, l⟩
  cases res <;> rfl

/-- The result of `LoadMatrixFromCSV` is its log-free core. -/
theorem LoadMatrixFromCSV_fst (file : Option CsvFile) (dtIn : ℚ)
    (fname : String) (quiet : Bool) :
    (LoadMatrixFromCSV file dtIn fname quiet).1 = loadMatrixPure file dtIn := by
  cases file with
  | none => rfl
  | some f =>
    unfold LoadMatrixFromCSV loadMatrixPure
    cases h : checkFrom f.rows dtIn 0 f.rows.length <;> simp [h]

/-- The result of `LoadTrajectory` is its log-free core: the `std::cout`
traffic (and in particular the `quiet` flag) never touches the outcome. -/
theorem LoadTrajectory_fst (fs : String → Option CsvFile) (fp : String)
    (quiet : Bool) :
    (LoadTrajectory fs fp quiet).1 = LoadTrajectoryPure fs fp := by
  unfold LoadTrajectory LoadTrajectoryPure
  simp only [andThen_fst, LoadMatrixFromCSV_fst]
  refine exceptBind_congr fun rx => exceptBind_congr fun ru =>
    exceptBind_congr fun rk => exceptBind_congr fun ra => ?_
  cases h : schemaChecks rx.1 ru.1 rk.1 ra.1 with
  | some e => simp [h]
  | none =>
    by_cases hti : IsTimeInvariant rk.1 <;>
      simp [h, hti, andThen_fst, LoadMatrixFromCSV_fst]

/-! ## Evaluation lemmas for the fixtures -/

/-- `cTrunc` at a nonnegative value, by the floor bounds. -/
theorem cTrunc_of_nonneg {q : ℚ} {n : ℤ} (hn : 0 ≤ n) (h1 : (n : ℚ) ≤ q)
    (h2 : q < n + 1) : cTrunc q = n := by
  have h0 : 0 ≤ q := le_trans (by exact_mod_cast hn) h1
  unfold cTrunc
  rw [if_pos h0, Int.floor_eq_iff]
  exact ⟨h1, h2⟩

theorem load_fs1_x : loadMatrixPure (fs1 ("aaaaa" ++ "-x.csv")) 0 =
    .ok (⟨[[1/10, 0], [3/20, 0]], 2⟩, 1/20) := by
  simp [fs1, fsOf, loadMatrixPure, checkFrom, rowStep, timeAt]
  norm_num

theorem load_fs1_u : loadMatrixPure (fs1 ("aaaaa" ++ "-u.csv")) (1/20) =
    .ok (⟨[[1/10, 1], [3/20, 1]], 2⟩, 1/20) := by
  simp [fs1, fsOf, loadMatrixPure, checkFrom, rowStep, timeAt]
  norm_num

theorem load_fs1_k : loadMatrixPure (fs1 ("aaaaa" ++ "-controller.csv")) (1/20) =
    .ok (⟨[[1/10, 5], [3/20, 6]], 2⟩, 1/20) := by
  simp [fs1, fsOf, loadMatrixPure, checkFrom, rowStep, timeAt]
  norm_num

theorem load_fs1_a : loadMatrixPure (fs1 ("aaaaa" ++ "-affine.csv")) (1/20) =
    .ok (⟨[[1/10, 0], [3/20, 0]], 2⟩, 1/20) := by
  simp [fs1, fsOf, loadMatrixPure, checkFrom, rowStep, timeAt]
  norm_num

/-- Loading the `fs1` fixture succeeds and yields `traj1`. -/
theorem load_fs1 : LoadTrajectoryPure fs1 "aaaaa" = .ok traj1 := by
  unfold LoadTrajectoryPure
  simp only [load_fs1_x, load_fs1_u, load_fs1_k, load_fs1_a, exceptBind_ok]
  norm_num [schemaChecks, IsTimeInvariant, traj1]

theorem load_fs3_x : loadMatrixPure (fs3 ("bbbbb" ++ "-x.csv")) 0 =
    .ok (⟨[[0, 0], [1/20, 0], [1/10, 0]], 2⟩, 1/20) := by
  simp [fs3, fsOf, loadMatrixPure, checkFrom, rowStep, timeAt, eps]
  norm_num

theorem load_fs3_u : loadMatrixPure (fs3 ("bbbbb" ++ "-u.csv")) (1/20) =
    .ok (⟨[[0, 1], [1/20, 1], [1/10, 1]], 2⟩, 1/20) := by
  simp [fs3, fsOf, loadMatrixPure, checkFrom, rowStep, timeAt, eps]
  norm_num

theorem load_fs3_k : loadMatrixPure (fs3 ("bbbbb" ++ "-controller.csv")) (1/20) =
    .ok (⟨[[0, 5], [1/20, 6], [1/10, 7]], 2⟩, 1/20) := by
  simp [fs3, fsOf, loadMatrixPure, checkFrom, rowStep, timeAt, eps]
  norm_num

theorem load_fs3_a : loadMatrixPure (fs3 ("bbbbb" ++ "-affine.csv")) (1/20) =
    .ok (⟨[[0, 0], [1/20, 0], [1/10, 0]], 2⟩, 1/20) := by
  simp [fs3, fsOf, loadMatrixPure, checkFrom, rowStep, timeAt, eps]
  norm_num

/-- Loading the `fs3` fixture succeeds and yields `traj3`. -/
theorem load_fs3 : LoadTrajectoryPure fs3 "bbbbb" = .ok traj3 := by
  unfold LoadTrajectoryPure
  simp only [load_fs3_x, load_fs3_u, load_fs3_k, load_fs3_a, exceptBind_ok]
  norm_num [schemaChecks, IsTimeInvariant, traj3]

/-- The spacing-scenario table aborts its load at row 3 with residual
`0.05`. -/
theorem load_fscen : loadMatrixPure (some fscen) 0 =
    .error (.spacingError 3 (1/20)) := by
  simp [fscen, loadMatrixPure, checkFrom, rowStep, timeAt, eps]
  norm_num

/-- Loading the `fs4` fixture dies in the state-table spacing check. -/
theorem load_fs4 : LoadTrajectoryPure fs4 "ccccc" =
    .error (.spacingError 3 (1/20)) := by
  have hlook : fs4 ("ccccc" ++ "-x.csv") = some fscen := rfl
  unfold LoadTrajectoryPure
  rw [hlook, load_fscen]
  rfl

/-- Loading the `fs8` fixture (unreadable `-x.csv`) succeeds. -/
theorem load_fs8 : LoadTrajectoryPure fs8 "ddddd" = .ok traj8 := rfl

/-- Loading the `fs5` fixture dies in the gain-column schema check,
reporting 2 expected columns against 3 found. -/
theorem load_fs5 : LoadTrajectoryPure fs5 "eeeee" =
    .error (.schemaErrorCols "-controller.csv" 2 3) := rfl

/-- On `traj1` (first timestamp `t0 = 1/10`), querying the very first
timestamp returns row index 4, not 0:
`int(t0/dt) = 2`, `fmod(t0, dt) = 0`, `starting_dts = 2`, total 4. -/
theorem idx1_t0 : GetIndexFromTime traj1 (1/10) false = 4 := by
  unfold GetIndexFromTime GetIndexFromTimeCore fmod
  norm_num [timeAt, traj1]
  rw [show cTrunc (2:ℚ) = 2 from
    cTrunc_of_nonneg (by norm_num) (by norm_num) (by norm_num)]
  norm_num

/-- On `traj1`, querying the last timestamp `tf = 3/20` returns 5, not the
last row index 1. -/
theorem idx1_tf : GetIndexFromTime traj1 (3/20) false = 5 := by
  unfold GetIndexFromTime GetIndexFromTimeCore fmod
  norm_num [timeAt, traj1]
  rw [show cTrunc (3:ℚ) = 3 from
    cTrunc_of_nonneg (by norm_num) (by norm_num) (by norm_num),
    show cTrunc (2:ℚ) = 2 from
    cTrunc_of_nonneg (by norm_num) (by norm_num) (by norm_num)]
  norm_num

/-- On `traj1`, a query strictly past `tf` clamps to the last row index 1. -/
theorem idx1_past : GetIndexFromTime traj1 (1/5) false = 1 := by
  unfold GetIndexFromTime GetIndexFromTimeCore
  norm_num [timeAt, traj1]

/-- On `traj3` (`t0 = 0`, `dt = 1/20`), the exact half-step query
`t = dt/2 = 1/40` has `fmod(t, dt) = 1/40 = 0.5 * dt`, the strict `>`
fails, and the index is 0 — the tie lands on the *earlier* sample. -/
theorem idx3_half : GetIndexFromTime traj3 (1/40) false = 0 := by
  unfold GetIndexFromTime GetIndexFromTimeCore fmod
  norm_num [timeAt, traj3]
  rw [show cTrunc ((1:ℚ)/2) = 0 from
    cTrunc_of_nonneg le_rfl (by norm_num) (by norm_num),
    show cTrunc (0:ℚ) = 0 from
    cTrunc_of_nonneg le_rfl (by norm_num) (by norm_num)]
  norm_num

/-- On `traj3`, the spec's scenario query `t = 0.074` maps to index 1:
`int(t/dt) = 1` and the remainder `0.024` is below `0.5 * dt = 0.025`. -/
theorem idx3_074 : GetIndexFromTime traj3 (37/500) false = 1 := by
  unfold GetIndexFromTime GetIndexFromTimeCore fmod
  norm_num [timeAt, traj3]
  rw [show cTrunc ((37:ℚ)/25) = 1 from
    cTrunc_of_nonneg (by norm_num) (by norm_num) (by norm_num),
    show cTrunc (0:ℚ) = 0 from
    cTrunc_of_nonneg le_rfl (by norm_num) (by norm_num)]
  norm_num

/-! ## Structure of a successful load -/

/-- The spec-modelled time-invariance test, spelled out: all gain rows are
pairwise identical. -/
theorem IsTimeInvariant_iff (m : MatrixXd) :
    IsTimeInvariant m = true ↔ ∀ r ∈ m.rows, ∀ s ∈ m.rows, r = s := by
  simp [IsTimeInvariant, List.all_eq_true]

/-- Inversion of a successful `LoadTrajectoryPure`: the four table loads
succeeded, the schema checks passed, every field of the trajectory is the
corresponding loaded matrix, and the rollout table was loaded exactly when
the gain table is time-invariant. -/
theorem LoadTrajectoryPure_ok {fs : String → Option CsvFile} {fp : String}
    {traj : Trajectory} (h : LoadTrajectoryPure fs fp = .ok traj) :
    ∃ rx ru rk ra : MatrixXd × ℚ,
      loadMatrixPure (fs (fp ++ "-x.csv")) 0 = .ok rx ∧
      loadMatrixPure (fs (fp ++ "-u.csv")) rx.2 = .ok ru ∧
      loadMatrixPure (fs (fp ++ "-controller.csv")) ru.2 = .ok rk ∧
      loadMatrixPure (fs (fp ++ "-affine.csv")) rk.2 = .ok ra ∧
      schemaChecks rx.1 ru.1 rk.1 ra.1 = none ∧
      traj.xpoints = rx.1 ∧ traj.upoints = ru.1 ∧ traj.kpoints = rk.1 ∧
      traj.affine_points = ra.1 ∧
      traj.dimension = (rx.1.nCols : ℤ) - 1 ∧
      traj.udimension = (ru.1.nCols : ℤ) - 1 ∧
      ((IsTimeInvariant rk.1 = true ∧
        ∃ rr : MatrixXd × ℚ,
          loadMatrixPure (fs (fp ++ "-rollout.csv")) ra.2 = .ok rr ∧
          traj.xpoints_rollout = some rr.1 ∧ traj.dt = rr.2) ∨
       (IsTimeInvariant rk.1 = false ∧ traj.xpoints_rollout = none ∧
        traj.dt = ra.2)) := by
  unfold LoadTrajectoryPure at h
  cases hx : loadMatrixPure (fs (fp ++ "-x.csv")) 0 with
  | error e => rw [hx] at h; simp at h
  | ok rx =>
  rw [hx] at h
  simp only [exceptBind_ok] at h
  cases hu : loadMatrixPure (fs (fp ++ "-u.csv")) rx.2 with
  | error e => rw [hu] at h; simp at h
  | ok ru =>
  rw [hu] at h
  simp only [exceptBind_ok] at h
  cases hk : loadMatrixPure (fs (fp ++ "-controller.csv")) ru.2 with
  | error e => rw [hk] at h; simp at h
  | ok rk =>
  rw [hk] at h
  simp only [exceptBind_ok] at h
  cases ha : loadMatrixPure (fs (fp ++ "-affine.csv")) rk.2 with
  | error e => rw [ha] at h; simp at h
  | ok ra =>
  rw [ha] at h
  simp only [exceptBind_ok] at h
  cases hsc : schemaChecks rx.1 ru.1 rk.1 ra.1 with
  | some e => rw [hsc] at h; simp at h
  | none =>
  rw [hsc] at h
  simp only [] at h
  by_cases hti : IsTimeInvariant rk.1
  · rw [if_pos hti] at h
    cases hrr : loadMatrixPure (fs (fp ++ "-rollout.csv")) ra.2 with
    | error e => rw [hrr] at h; simp at h
    | ok rr =>
    rw [hrr] at h
    simp only [exceptBind_ok] at h
    obtain rfl := (Except.ok.inj h).symm
    exact ⟨rx, ru, rk, ra, rfl, hu, hk, ha, hsc, rfl, rfl, rfl, rfl, rfl,
      rfl, Or.inl ⟨hti, rr, hrr, rfl, rfl⟩⟩
  · rw [if_neg hti] at h
    obtain rfl := (Except.ok.inj h).symm
    exact ⟨rx, ru, rk, ra, rfl, hu, hk, ha, hsc, rfl, rfl, rfl, rfl, rfl,
      rfl, Or.inr ⟨Bool.of_not_eq_true hti, rfl, rfl⟩⟩

/-- The schema checks pass exactly when the gain and affine column counts
and all four row counts agree. -/
theorem schemaChecks_none_iff (mx mu mk ma : MatrixXd) :
    schemaChecks mx mu mk ma = none ↔
      ((mk.nCols : ℤ) - 1 = ((mx.nCols : ℤ) - 1) * ((mu.nCols : ℤ) - 1) ∧
       (ma.nCols : ℤ) - 1 = (mu.nCols : ℤ) - 1 ∧
       mx.rows.length = mu.rows.length ∧
       mx.rows.length = mk.rows.length ∧
       mx.rows.length = ma.rows.length) := by
  unfold schemaChecks
  split_ifs with h1 h2 h3
  · simp [h1]
  · simp [h2]
  · rcases h3 with h | h | h <;> simp [h1, h2, h]
  · push_neg at h1 h2 h3
    simp [h1, h2, h3.1, h3.2.1, h3.2.2]
    omega

/-- Behaviour of the spacing scan from row `r ≥ 2` on (the `dt_` member is
no longer written there): it reports exactly the first row in range whose
spacing exceeds `dt` by more than `5 * eps`, with the printed residual. -/
theorem checkFrom_error_iff (m : List (List ℚ)) (dt : ℚ) (s : ℕ) (res : ℚ) :
    ∀ (fuel r : ℕ), 2 ≤ r →
    (checkFrom m dt r fuel = .error (.spacingError s res) ↔
      (r ≤ s ∧ s < r + fuel ∧
       res = timeAt m s - timeAt m (s - 1) - dt ∧ 5 * eps < res ∧
       ∀ j, r ≤ j → j < s →
         timeAt m j - timeAt m (j - 1) - dt ≤ 5 * eps)) := by
  intro fuel
  induction fuel with
  | zero =>
    intro r hr
    simp only [checkFrom]
    constructor
    · intro h; exact absurd h (by simp)
    · rintro ⟨h1, h2, h3, h4, h5⟩; omega
  | succ n ih =>
    intro r hr
    have hne1 : ¬ r = 1 := by omega
    have hgt1 : 1 < r := by omega
    have hunf : checkFrom m dt r (n + 1) =
        match rowStep m r dt with
        | .error e => .error e
        | .ok dt' => checkFrom m dt' (r + 1) n := rfl
    by_cases hc : timeAt m r - timeAt m (r - 1) - dt > 5 * eps
    · have hrs : rowStep m r dt =
          .error (.spacingError r (timeAt m r - timeAt m (r - 1) - dt)) := by
        unfold rowStep
        rw [if_neg hne1, if_pos hgt1, if_pos hc]
      rw [hunf, hrs]
      constructor
      · intro h
        have h' := Except.error.inj h
        injection h' with hs hres
        subst hs
        refine ⟨le_refl r, by omega, hres.symm, hres ▸ hc, ?_⟩
        intro j hj1 hj2; omega
      · rintro ⟨h1, h2, h3, h4, h5⟩
        rcases Nat.eq_or_lt_of_le h1 with rfl | hlt
        · rw [h3]
        · exact absurd hc (not_lt.mpr (h5 r le_rfl hlt))
    · have hrs : rowStep m r dt = .ok dt := by
        unfold rowStep
        rw [if_neg hne1, if_pos hgt1, if_neg hc]
      rw [hunf, hrs]
      show checkFrom m dt (r + 1) n = _ ↔ _
      rw [ih (r + 1) (by omega)]
      constructor
      · rintro ⟨h1, h2, h3, h4, h5⟩
        refine ⟨by omega, by omega, h3, h4, ?_⟩
        intro j hj1 hj2
        rcases Nat.eq_or_lt_of_le hj1 with rfl | hjlt
        · exact not_lt.mp hc
        · exact h5 j (by omega) hj2
      · rintro ⟨h1, h2, h3, h4, h5⟩
        have hsr : r ≠ s := by
          rintro rfl
          exact absurd (h3 ▸ h4) (not_lt.mpr (le_of_not_lt hc))
        refine ⟨by omega, by omega, h3, h4, ?_⟩
        intro j hj1 hj2
        exact h5 j (by omega) hj2

/-- A load from a present file fails with a given `SpacingError` exactly
when the named row is the first one (from row 2 on) whose spacing exceeds
the `dt` of rows 0 and 1 by more than `5 * eps`, and the reported residual
is that excess. -/
theorem loadMatrixPure_spacing_iff (f : CsvFile) (dtIn : ℚ) (s : ℕ)
    (res : ℚ) :
    loadMatrixPure (some f) dtIn = .error (.spacingError s res) ↔
      (2 ≤ s ∧ s < f.rows.length ∧
       res = timeAt f.rows s - timeAt f.rows (s - 1) -
         (timeAt f.rows 1 - timeAt f.rows 0) ∧
       5 * eps < res ∧
       ∀ j, 2 ≤ j → j < s →
         timeAt f.rows j - timeAt f.rows (j - 1) -
           (timeAt f.rows 1 - timeAt f.rows 0) ≤ 5 * eps) := by
  have key : ∀ E : Except LoadError ℚ,
      ((match E with
        | .error e => (.error e : Except LoadError (MatrixXd × ℚ))
        | .ok dtOut => .ok (⟨f.rows, f.headerCols⟩, dtOut)) =
        .error (.spacingError s res)) ↔
        E = .error (.spacingError s res) := by
    intro E; cases E <;> simp
  have hstep : loadMatrixPure (some f) dtIn =
      match checkFrom f.rows dtIn 0 f.rows.length with
      | .error e => .error e
      | .ok dtOut => .ok (⟨f.rows, f.headerCols⟩, dtOut) := rfl
  rw [hstep, key]
  rcases hL : f.rows.length with _ | nL
  · simp only [checkFrom]
    constructor
    · intro h; exact absurd h (by simp)
    · rintro ⟨h1, h2, h3, h4, h5⟩; omega
  · rcases nL with _ | n
    · have : checkFrom f.rows dtIn 0 1 = .ok dtIn := rfl
      rw [this]
      constructor
      · intro h; exact absurd h (by simp)
      · rintro ⟨h1, h2, h3, h4, h5⟩; omega
    · have hrun : checkFrom f.rows dtIn 0 (n + 2) =
          checkFrom f.rows (timeAt f.rows 1 - timeAt f.rows 0) 2 n := rfl
      rw [hrun, checkFrom_error_iff f.rows _ s res n 2 (le_refl 2)]
      constructor
      · rintro ⟨h1, h2, h3, h4, h5⟩
        exact ⟨h1, by omega, h3, h4, h5⟩
      · rintro ⟨h1, h2, h3, h4, h5⟩
        exact ⟨h1, by omega, h3, h4, h5⟩

/-! ## Arithmetic of the time-to-index mapping -/

/-- On an exactly-spaced table whose first timestamp `t0` lies in
`[0, dt/2]`, an in-bounds query evaluates to
`⌊t/dt⌋` plus the round-up bump: `cTrunc` is `⌊·⌋` on nonnegative input
and `starting_dts = cTrunc (t0/dt) = 0`. -/
theorem core_eval_inbounds (m : List (List ℚ)) (dt t0 t : ℚ) (n : ℕ)
    (hn : m.length = n) (hn1 : 1 ≤ n) (hdt : 0 < dt)
    (h00 : 0 ≤ t0) (hth : t0 ≤ dt / 2)
    (ht : ∀ k, k < n → timeAt m k = t0 + k * dt)
    (hlo : ¬ t < t0) (hhi : ¬ t > t0 + ((n : ℚ) - 1) * dt) :
    GetIndexFromTimeCore m dt t =
      ⌊t / dt⌋ + (if t - (⌊t / dt⌋ : ℚ) * dt > (1 / 2) * dt then 1 else 0) := by
  have ht0 : timeAt m 0 = t0 := by simpa using ht 0 (by omega)
  have htf : timeAt m (m.length - 1) = t0 + ((n : ℚ) - 1) * dt := by
    rw [hn, ht (n - 1) (by omega)]
    congr 1
    rw [Nat.cast_sub (by exact_mod_cast hn1)]
    norm_num
  have htpos : 0 ≤ t := le_trans h00 (not_lt.mp hlo)
  have hctr : cTrunc (t / dt) = ⌊t / dt⌋ := by
    unfold cTrunc
    rw [if_pos (div_nonneg htpos hdt.le)]
  have hst : cTrunc (t0 / dt) = 0 := by
    unfold cTrunc
    rw [if_pos (div_nonneg h00 hdt.le)]
    rw [Int.floor_eq_zero_iff, Set.mem_Ico]
    exact ⟨div_nonneg h00 hdt.le, by rw [div_lt_one hdt]; linarith⟩
  simp only [GetIndexFromTimeCore]
  rw [ht0, htf, if_neg hlo, if_neg hhi]
  unfold fmod
  rw [hctr, hst]
  by_cases hb : t - (⌊t / dt⌋ : ℚ) * dt > (1 / 2) * dt
  · rw [if_pos hb, if_pos hb]
    ring
  · rw [if_neg hb, if_neg hb]

/-- The floor-times-step bounds `⌊t/dt⌋·dt ≤ t < (⌊t/dt⌋+1)·dt`. -/
theorem floor_step_bounds {dt : ℚ} (t : ℚ) (hdt : 0 < dt) :
    (⌊t / dt⌋ : ℚ) * dt ≤ t ∧ t < ((⌊t / dt⌋ : ℚ) + 1) * dt := by
  constructor
  · have h := Int.floor_le (t / dt)
    calc (⌊t / dt⌋ : ℚ) * dt ≤ (t / dt) * dt :=
          mul_le_mul_of_nonneg_right h hdt.le
      _ = t := div_mul_cancel₀ t (ne_of_gt hdt)
  · have h := Int.lt_floor_add_one (t / dt)
    calc t = (t / dt) * dt := (div_mul_cancel₀ t (ne_of_gt hdt)).symm
      _ < ((⌊t / dt⌋ : ℚ) + 1) * dt := by
          exact mul_lt_mul_of_pos_right h hdt

set_option maxHeartbeats 1600000 in
/-- On an exactly-spaced table starting at time 0, an in-bounds query maps
to an in-range row index that is nearest to the query among all rows, with
an exact tie (remainder `= dt/2`) resolved toward the *earlier* sample. -/
theorem core_nearest (m : List (List ℚ)) (dt t : ℚ) (n : ℕ)
    (hn : m.length = n) (hn1 : 1 ≤ n) (hdt : 0 < dt)
    (ht : ∀ k, k < n → timeAt m k = (k : ℚ) * dt)
    (h0 : 0 ≤ t) (htf : t ≤ ((n : ℚ) - 1) * dt) :
    ∃ i : ℕ, GetIndexFromTimeCore m dt t = (i : ℤ) ∧ i < n ∧
      ∀ j : ℕ, j < n →
        |t - (i : ℚ) * dt| < |t - (j : ℚ) * dt| ∨
        (|t - (i : ℚ) * dt| = |t - (j : ℚ) * dt| ∧ i ≤ j) := by
  have heval := core_eval_inbounds m dt 0 t n hn hn1 hdt le_rfl
    (by linarith)
    (by intro a ha; rw [ht a ha]; ring)
    (not_lt.mpr h0)
    (by push_neg; linarith)
  have hK0 : 0 ≤ ⌊t / dt⌋ := Int.floor_nonneg.mpr (div_nonneg h0 hdt.le)
  have hb1 := (floor_step_bounds t hdt).1
  have hb2 := (floor_step_bounds t hdt).2
  obtain ⟨k, hkK⟩ : ∃ k : ℕ, (k : ℤ) = ⌊t / dt⌋ :=
    ⟨⌊t / dt⌋.toNat, Int.toNat_of_nonneg hK0⟩
  have hkQ : ((k : ℕ) : ℚ) = ((⌊t / dt⌋ : ℤ) : ℚ) := by exact_mod_cast hkK
  rw [← hkK] at heval
  rw [← hkQ] at hb1 hb2
  have hflk : (k : ℚ) * dt ≤ t := hb1
  have hfuk : t < ((k : ℚ) + 1) * dt := hb2
  by_cases hcond : t - ((k : ℤ) : ℚ) * dt > (1 / 2) * dt
  · -- round up: index k + 1
    have hcond' : t - (k : ℚ) * dt > (1 / 2) * dt := by push_cast at hcond ⊢; exact hcond
    refine ⟨k + 1, ?_, ?_, ?_⟩
    · rw [heval, if_pos hcond]
      push_cast
      ring
    · by_contra hge
      push_neg at hge
      have hc1 : ((n : ℚ) - 1) ≤ (k : ℚ) := by
        have h' : (n : ℤ) - 1 ≤ (k : ℤ) := by omega
        exact_mod_cast h'
      have h2 : ((n : ℚ) - 1) * dt ≤ (k : ℚ) * dt :=
        mul_le_mul_of_nonneg_right hc1 hdt.le
      linarith
    · intro j hj
      clear heval ht
      have habsI : |t - ((k + 1 : ℕ) : ℚ) * dt| = dt - (t - (k : ℚ) * dt) := by
        push_cast
        rw [abs_of_nonpos (by nlinarith)]
        ring
      rcases lt_trichotomy j k with hjk | rfl | hjk
      · left
        have hjk1 : (j : ℚ) + 1 ≤ (k : ℚ) := by exact_mod_cast hjk
        have habsJ : |t - (j : ℚ) * dt| = t - (j : ℚ) * dt :=
          abs_of_nonneg (by nlinarith)
        rw [habsI, habsJ]
        nlinarith
      · left
        rw [habsI, abs_of_nonneg (by linarith)]
        linarith
      · rcases Nat.lt_or_ge j (k + 2) with hj2 | hj2
        · have hjeq : j = k + 1 := by omega
          subst hjeq
          right
          exact ⟨rfl, le_refl _⟩
        · left
          have hjk2 : (k : ℚ) + 2 ≤ (j : ℚ) := by exact_mod_cast hj2
          have habsJ : |t - (j : ℚ) * dt| = (j : ℚ) * dt - t := by
            rw [abs_of_nonpos (by nlinarith)]
            ring
          rw [habsI, habsJ]
          nlinarith
  · -- no round up: index k
    have hcond' : t - (k : ℚ) * dt ≤ (1 / 2) * dt := by
      have h' := not_lt.mp hcond
      push_cast at h' ⊢
      exact h'
    refine ⟨k, ?_, ?_, ?_⟩
    · rw [heval, if_neg hcond]
      ring
    · have h1 : (k : ℚ) * dt ≤ ((n : ℚ) - 1) * dt := le_trans hflk htf
      have hkn : (k : ℚ) ≤ (n : ℚ) - 1 := le_of_mul_le_mul_right h1 hdt
      have h2 : (k : ℤ) ≤ (n : ℤ) - 1 := by exact_mod_cast hkn
      omega
    · intro j hj
      clear heval ht
      have habsI : |t - (k : ℚ) * dt| = t - (k : ℚ) * dt :=
        abs_of_nonneg (by linarith)
      rcases lt_trichotomy j k with hjk | rfl | hjk
      · left
        have hjk1 : (j : ℚ) + 1 ≤ (k : ℚ) := by exact_mod_cast hjk
        have habsJ : |t - (j : ℚ) * dt| = t - (j : ℚ) * dt :=
          abs_of_nonneg (by nlinarith)
        rw [habsI, habsJ]
        nlinarith
      · right
        exact ⟨rfl, le_refl _⟩
      · rcases Nat.lt_or_ge j (k + 2) with hj2 | hj2
        · have hjeq : j = k + 1 := by omega
          subst hjeq
          have habsJ : |t - ((k + 1 : ℕ) : ℚ) * dt| =
              dt - (t - (k : ℚ) * dt) := by
            push_cast
            rw [abs_of_nonpos (by nlinarith)]
            ring
          rcases lt_or_eq_of_le hcond' with hlt | heq
          · left
            rw [habsI, habsJ]
            linarith
          · right
            rw [habsI, habsJ]
            exact ⟨by linarith, Nat.le_succ k⟩
        · left
          have hjk2 : (k : ℚ) + 2 ≤ (j : ℚ) := by exact_mod_cast hj2
          have habsJ : |t - (j : ℚ) * dt| = (j : ℚ) * dt - t := by
            rw [abs_of_nonpos (by nlinarith)]
            ring
          rw [habsI, habsJ]
          nlinarith

set_option maxHeartbeats 1600000 in
/-- On an exactly-spaced table whose first timestamp lies in `[0, dt/2]`
(in particular `t0 = 0`), the time-to-index map is monotone
non-decreasing, clamping included. -/
theorem core_mono (m : List (List ℚ)) (dt t0 : ℚ) (n : ℕ)
    (hn : m.length = n) (hn1 : 1 ≤ n) (hdt : 0 < dt)
    (h00 : 0 ≤ t0) (hth : t0 ≤ dt / 2)
    (ht : ∀ k, k < n → timeAt m k = t0 + (k : ℚ) * dt) :
    ∀ t1 t2 : ℚ, t1 ≤ t2 →
      GetIndexFromTimeCore m dt t1 ≤ GetIndexFromTimeCore m dt t2 := by
  have ht0 : timeAt m 0 = t0 := by simpa using ht 0 (by omega)
  have htf : timeAt m (m.length - 1) = t0 + ((n : ℚ) - 1) * dt := by
    rw [hn, ht (n - 1) (by omega)]
    congr 1
    rw [Nat.cast_sub (by exact_mod_cast hn1)]
    norm_num
  have hlow : ∀ t : ℚ, t < t0 → GetIndexFromTimeCore m dt t = 0 := by
    intro t hlt
    simp only [GetIndexFromTimeCore]
    rw [ht0, if_pos hlt]
  have hhigh : ∀ t : ℚ, t > t0 + ((n : ℚ) - 1) * dt →
      GetIndexFromTimeCore m dt t = (n : ℤ) - 1 := by
    intro t hgt
    have htge : ¬ t < t0 := by
      push_neg
      have hn1q : (1 : ℚ) ≤ (n : ℚ) := by exact_mod_cast hn1
      nlinarith [mul_nonneg (by linarith : (0:ℚ) ≤ (n:ℚ) - 1) hdt.le]
    simp only [GetIndexFromTimeCore]
    rw [ht0, htf, if_neg htge, if_pos hgt, hn]
  have hfl_le : ∀ t : ℚ, t ≤ t0 + ((n : ℚ) - 1) * dt → ⌊t / dt⌋ ≤ (n : ℤ) - 1 := by
    intro t htle
    have hq : t / dt < (n : ℚ) := by
      rw [div_lt_iff₀ hdt]
      nlinarith
    have h2 : ⌊t / dt⌋ < (n : ℤ) := Int.floor_lt.mpr (by exact_mod_cast hq)
    omega
  have hg_le : ∀ t : ℚ, ¬ t < t0 → t ≤ t0 + ((n : ℚ) - 1) * dt →
      ⌊t / dt⌋ + (if t - (⌊t / dt⌋ : ℚ) * dt > (1 / 2) * dt then 1 else 0) ≤
        (n : ℤ) - 1 := by
    intro t htge htle
    have hfl := hfl_le t htle
    split_ifs with hbump
    · rcases lt_or_eq_of_le hfl with hlt | heq
      · omega
      · exfalso
        have hc : (⌊t / dt⌋ : ℚ) = (n : ℚ) - 1 := by
          rw [heq]; push_cast; ring
        rw [hc] at hbump
        nlinarith
    · omega
  intro t1 t2 h12
  by_cases h1lo : t1 < t0
  · rw [hlow t1 h1lo]
    by_cases h2lo : t2 < t0
    · rw [hlow t2 h2lo]
    · by_cases h2hi : t2 > t0 + ((n : ℚ) - 1) * dt
      · rw [hhigh t2 h2hi]; omega
      · rw [core_eval_inbounds m dt t0 t2 n hn hn1 hdt h00 hth ht h2lo h2hi]
        have hpos : 0 ≤ ⌊t2 / dt⌋ :=
          Int.floor_nonneg.mpr (div_nonneg (le_trans h00 (not_lt.mp h2lo))
            hdt.le)
        split_ifs <;> omega
  · by_cases h1hi : t1 > t0 + ((n : ℚ) - 1) * dt
    · rw [hhigh t1 h1hi, hhigh t2 (lt_of_lt_of_le h1hi h12)]
    · rw [core_eval_inbounds m dt t0 t1 n hn hn1 hdt h00 hth ht h1lo h1hi]
      by_cases h2hi : t2 > t0 + ((n : ℚ) - 1) * dt
      · rw [hhigh t2 h2hi]
        exact hg_le t1 h1lo (not_lt.mp h1hi)
      · have h2lo : ¬ t2 < t0 := by push_neg; linarith [not_lt.mp h1lo]
        rw [core_eval_inbounds m dt t0 t2 n hn hn1 hdt h00 hth ht h2lo h2hi]
        clear ht hlow hhigh hg_le hfl_le
        have hff : ⌊t1 / dt⌋ ≤ ⌊t2 / dt⌋ :=
          Int.floor_le_floor ((div_le_div_iff_of_pos_right hdt).mpr h12)
        rcases lt_or_eq_of_le hff with hflt | hfeq
        · split_ifs <;> omega
        · rw [← hfeq]
          split_ifs with b1 b2
          · omega
          · exfalso
            have : t2 - (⌊t1 / dt⌋ : ℚ) * dt > (1 / 2) * dt := by linarith
            exact b2 this
          · omega
          · omega

/-! ## The claims -/

/-- C1: the spec asserts `indexFromTime(t0) == 0` and
`indexFromTime(tf) == lastIndex` for every successfully loaded trajectory.
The code computes `num_dts + starting_dts` (line 215) instead of
`num_dts - starting_dts`, so for the loadable trajectory `traj1`, whose
timestamps start at `t0 = 1/10` with `dt = 1/20`, the query at `t0`
returns 4 (not 0) and the query at `tf = 3/20` returns 5 (not the last
index 1), contradicting both halves of the claim and the function's own
"index of nearest point" contract. -/
theorem C1_index_at_bounds_code_bug :
    (LoadTrajectory fs1 "aaaaa" true).1 = .ok traj1 ∧
    timeAt traj1.xpoints.rows 0 = 1/10 ∧
    timeAt traj1.xpoints.rows (traj1.xpoints.rows.length - 1) = 3/20 ∧
    traj1.xpoints.rows.length - 1 = 1 ∧
    GetIndexFromTime traj1 (1/10) false = 4 ∧
    GetIndexFromTime traj1 (3/20) false = 5 := by
  refine ⟨?_, ?_, ?_, rfl, idx1_t0, idx1_tf⟩
  · rw [LoadTrajectory_fst]; exact load_fs1
  · norm_num [timeAt, traj1]
  · norm_num [timeAt, traj1]

/-- C2 counterexample: on the loaded `traj3` (`t0 = 0`, `dt = 1/20`), the
query `t = dt/2 = 1/40` has remainder exactly `0.5 * dt`; the claim says
the tie resolves toward the later sample (index 1), but the strict `>` on
line 209 fails and the code returns index 0. -/
theorem C2_counterexample :
    (LoadTrajectory fs3 "bbbbb" true).1 = .ok traj3 ∧
    fmod (1/40) traj3.dt = (1/2) * traj3.dt ∧
    GetIndexFromTime traj3 (1/40) false = 0 ∧ (0 : ℤ) ≠ 1 := by
  refine ⟨?_, ?_, idx3_half, by decide⟩
  · rw [LoadTrajectory_fst]; exact load_fs3
  · unfold fmod
    norm_num [traj3]
    rw [show cTrunc ((1:ℚ)/2) = 0 from
      cTrunc_of_nonneg le_rfl (by norm_num) (by norm_num)]

/-- C2 (amended): for every successfully loaded trajectory whose
state-table timestamps are exactly `k * dt` (first timestamp 0) with
`dt > 0`, and every query `t` within `[t0, tf]`, `GetIndexFromTime`
returns an in-range row index nearest to `t` among all rows — no
interpolation — with an exact tie (`remainder = 0.5 * dt`) resolved
toward the *earlier* sample; in particular `indexFromTime(0.074) = 1`
for `dt = 0.05` (see the witness). -/
theorem C2_nearest_sample (fs : String → Option CsvFile) (fp : String)
    (q : Bool) (traj : Trajectory) (n : ℕ)
    (hload : (LoadTrajectory fs fp q).1 = .ok traj)
    (hn : traj.xpoints.rows.length = n) (hn1 : 1 ≤ n)
    (hdt : 0 < traj.dt)
    (ht : ∀ k, k < n → timeAt traj.xpoints.rows k = (k : ℚ) * traj.dt)
    (t : ℚ) (h0 : 0 ≤ t) (htf : t ≤ ((n : ℚ) - 1) * traj.dt) :
    ∃ i : ℕ, GetIndexFromTime traj t false = (i : ℤ) ∧ i < n ∧
      ∀ j : ℕ, j < n →
        |t - (i : ℚ) * traj.dt| < |t - (j : ℚ) * traj.dt| ∨
        (|t - (i : ℚ) * traj.dt| = |t - (j : ℚ) * traj.dt| ∧ i ≤ j) := by
  have hcore : GetIndexFromTime traj t false =
      GetIndexFromTimeCore traj.xpoints.rows traj.dt t := by
    simp [GetIndexFromTime]
  rw [hcore]
  exact core_nearest traj.xpoints.rows traj.dt t n hn hn1 hdt ht h0 htf

/-- C2 witness: the spec's own scenario on `traj3` (`dt = 0.05`, three
rows at times 0, 0.05, 0.1): `t = 0.074` maps to index 1, the nearest
sample. -/
theorem C2_witness :
    ((LoadTrajectory fs3 "bbbbb" true).1 = .ok traj3 ∧
     traj3.xpoints.rows.length = 3 ∧ 0 < traj3.dt ∧
     (0 : ℚ) ≤ 37/500 ∧ (37/500 : ℚ) ≤ ((3 : ℚ) - 1) * traj3.dt) ∧
    GetIndexFromTime traj3 (37/500) false = 1 ∧
    (∃ i : ℕ, GetIndexFromTime traj3 (37/500) false = (i : ℤ) ∧ i < 3 ∧
      ∀ j : ℕ, j < 3 →
        |37/500 - (i : ℚ) * traj3.dt| < |37/500 - (j : ℚ) * traj3.dt| ∨
        (|37/500 - (i : ℚ) * traj3.dt| = |37/500 - (j : ℚ) * traj3.dt| ∧
          i ≤ j)) := by
  have hload : (LoadTrajectory fs3 "bbbbb" true).1 = .ok traj3 := by
    rw [LoadTrajectory_fst]; exact load_fs3
  refine ⟨⟨hload, rfl, by norm_num [traj3], by norm_num,
    by norm_num [traj3]⟩, idx3_074, ?_⟩
  exact C2_nearest_sample fs3 "bbbbb" true traj3 3 hload rfl (by norm_num)
    (by norm_num [traj3])
    (by intro k hk; interval_cases k <;> norm_num [timeAt, traj3])
    (37/500) (by norm_num) (by norm_num [traj3])

/-- C3 counterexample: on the loaded `traj1` (first timestamp `0.1`,
`dt = 0.05`, last row index 1), the map is not monotone: at
`t1 = 0.15 = tf` it returns 5 but at `t2 = 0.2 > tf` it clamps to 1. -/
theorem C3_counterexample :
    (LoadTrajectory fs1 "aaaaa" true).1 = .ok traj1 ∧
    (3/20 : ℚ) ≤ 1/5 ∧
    GetIndexFromTime traj1 (3/20) false = 5 ∧
    GetIndexFromTime traj1 (1/5) false = 1 ∧
    ¬ (5 : ℤ) ≤ 1 := by
  refine ⟨?_, by norm_num, idx1_tf, idx1_past, by decide⟩
  rw [LoadTrajectory_fst]; exact load_fs1

/-- C3 (amended): for every successfully loaded trajectory whose
state-table timestamps are exactly `t0 + k * dt` with `dt > 0` and
`0 ≤ t0 ≤ dt/2` (in particular every trajectory starting at time 0),
`GetIndexFromTime` is monotone non-decreasing in the query time,
clamping included. -/
theorem C3_monotone (fs : String → Option CsvFile) (fp : String)
    (q : Bool) (traj : Trajectory) (n : ℕ) (t0 : ℚ)
    (hload : (LoadTrajectory fs fp q).1 = .ok traj)
    (hn : traj.xpoints.rows.length = n) (hn1 : 1 ≤ n)
    (hdt : 0 < traj.dt) (h00 : 0 ≤ t0) (hth : t0 ≤ traj.dt / 2)
    (ht : ∀ k, k < n →
      timeAt traj.xpoints.rows k = t0 + (k : ℚ) * traj.dt)
    (t1 t2 : ℚ) (h12 : t1 ≤ t2) :
    GetIndexFromTime traj t1 false ≤ GetIndexFromTime traj t2 false := by
  have hcore : ∀ t : ℚ, GetIndexFromTime traj t false =
      GetIndexFromTimeCore traj.xpoints.rows traj.dt t := by
    intro t; simp [GetIndexFromTime]
  rw [hcore, hcore]
  exact core_mono traj.xpoints.rows traj.dt t0 n hn hn1 hdt h00 hth ht
    t1 t2 h12

/-- C3 witness: on `traj3` (`t0 = 0`) two sample queries in order map to
non-decreasing indices. -/
theorem C3_witness :
    ((LoadTrajectory fs3 "bbbbb" true).1 = .ok traj3 ∧
     traj3.xpoints.rows.length = 3 ∧ 0 < traj3.dt ∧ (0 : ℚ) ≤ 0 ∧
     (0 : ℚ) ≤ traj3.dt / 2 ∧ (1/100 : ℚ) ≤ 9/100) ∧
    GetIndexFromTime traj3 (1/100) false ≤
      GetIndexFromTime traj3 (9/100) false := by
  have hload : (LoadTrajectory fs3 "bbbbb" true).1 = .ok traj3 := by
    rw [LoadTrajectory_fst]; exact load_fs3
  refine ⟨⟨hload, rfl, by norm_num [traj3], le_rfl, by norm_num [traj3],
    by norm_num⟩, ?_⟩
  exact C3_monotone fs3 "bbbbb" true traj3 3 0 hload rfl (by norm_num)
    (by norm_num [traj3]) le_rfl (by norm_num [traj3])
    (by intro k hk; interval_cases k <;> norm_num [timeAt, traj3])
    (1/100) (9/100) (by norm_num)

/-- C4 counterexample: the claim reads the spacing rule as two-sided
("deviates from dt by a residual larger than 5 machine epsilons").  The
check on line 120 has no absolute value: for the table with timestamps
`[0, 1, 0]` the pair at row 2 deviates from `dt = 1` by magnitude 2
(signed residual -2), far beyond `5 * eps`, yet the load succeeds. -/
theorem C4_counterexample :
    5 * eps < |timeAt fneg.rows 2 - timeAt fneg.rows 1 -
      (timeAt fneg.rows 1 - timeAt fneg.rows 0)| ∧
    loadMatrixPure (some fneg) 0 = .ok (⟨fneg.rows, 1⟩, 1) := by
  constructor
  · rw [show timeAt fneg.rows 2 - timeAt fneg.rows 1 -
        (timeAt fneg.rows 1 - timeAt fneg.rows 0) = -2 by
      norm_num [timeAt, fneg]]
    rw [abs_neg, abs_two]
    norm_num [eps]
  · simp [fneg, loadMatrixPure, checkFrom, rowStep, timeAt, eps]
    norm_num

/-- C4 (amended to the one-sided check the code performs): a table load
fails with `SpacingError(row, residual)` exactly when `row` is the first
data row (index ≥ 2) whose distance to its predecessor *exceeds* the
`dt` computed from rows 0 and 1 by more than `5 * eps`, the reported
residual being that signed excess (distances that fall short of `dt` are
not detected); and the spec's scenario holds: state-table timestamps
`[0, 0.05, 0.1, 0.2]` abort the whole load with `SpacingError` at row 3
and residual `0.05`. -/
theorem C4_spacing_check :
    (∀ (f : CsvFile) (dtIn : ℚ) (s : ℕ) (res : ℚ),
      loadMatrixPure (some f) dtIn = .error (.spacingError s res) ↔
        (2 ≤ s ∧ s < f.rows.length ∧
         res = timeAt f.rows s - timeAt f.rows (s - 1) -
           (timeAt f.rows 1 - timeAt f.rows 0) ∧
         5 * eps < res ∧
         ∀ j, 2 ≤ j → j < s →
           timeAt f.rows j - timeAt f.rows (j - 1) -
             (timeAt f.rows 1 - timeAt f.rows 0) ≤ 5 * eps)) ∧
    fs4 ("ccccc" ++ "-x.csv") = some fscen ∧
    fscen.rows.map (fun r => r.getD 0 0) = [0, 1/20, 1/10, 1/5] ∧
    (LoadTrajectory fs4 "ccccc" true).1 = .error (.spacingError 3 (1/20)) := by
  refine ⟨loadMatrixPure_spacing_iff, rfl, by norm_num [fscen], ?_⟩
  rw [LoadTrajectory_fst]
  exact load_fs4

/-- C5: loading succeeds only if the gain table has exactly
`stateDim*controlDim + 1` columns, the affine table exactly
`controlDim + 1`, and all four tables share one row count — these
equalities hold after every successful load — and, when the four tables
load cleanly but a count is off, the load fails with the corresponding
`SchemaError` carrying expected-versus-actual column counts (resp. the
four row counts), in the source's check order. -/
theorem C5_schema_validation :
    (∀ (fs : String → Option CsvFile) (fp : String) (q : Bool)
        (traj : Trajectory), (LoadTrajectory fs fp q).1 = .ok traj →
      ((traj.kpoints.nCols : ℤ) - 1 = traj.dimension * traj.udimension ∧
       (traj.affine_points.nCols : ℤ) - 1 = traj.udimension ∧
       traj.dimension = (traj.xpoints.nCols : ℤ) - 1 ∧
       traj.udimension = (traj.upoints.nCols : ℤ) - 1 ∧
       traj.xpoints.rows.length = traj.upoints.rows.length ∧
       traj.xpoints.rows.length = traj.kpoints.rows.length ∧
       traj.xpoints.rows.length = traj.affine_points.rows.length)) ∧
    (∀ (fs : String → Option CsvFile) (fp : String) (q : Bool)
        (rx ru rk ra : MatrixXd × ℚ),
      loadMatrixPure (fs (fp ++ "-x.csv")) 0 = .ok rx →
      loadMatrixPure (fs (fp ++ "-u.csv")) rx.2 = .ok ru →
      loadMatrixPure (fs (fp ++ "-controller.csv")) ru.2 = .ok rk →
      loadMatrixPure (fs (fp ++ "-affine.csv")) rk.2 = .ok ra →
      (rk.1.nCols : ℤ) - 1 ≠ ((rx.1.nCols : ℤ) - 1) * ((ru.1.nCols : ℤ) - 1) →
      (LoadTrajectory fs fp q).1 = .error (.schemaErrorCols "-controller.csv"
        (((rx.1.nCols : ℤ) - 1) * ((ru.1.nCols : ℤ) - 1) + 1) rk.1.nCols)) ∧
    (∀ (fs : String → Option CsvFile) (fp : String) (q : Bool)
        (rx ru rk ra : MatrixXd × ℚ),
      loadMatrixPure (fs (fp ++ "-x.csv")) 0 = .ok rx →
      loadMatrixPure (fs (fp ++ "-u.csv")) rx.2 = .ok ru →
      loadMatrixPure (fs (fp ++ "-controller.csv")) ru.2 = .ok rk →
      loadMatrixPure (fs (fp ++ "-affine.csv")) rk.2 = .ok ra →
      (rk.1.nCols : ℤ) - 1 = ((rx.1.nCols : ℤ) - 1) * ((ru.1.nCols : ℤ) - 1) →
      (ra.1.nCols : ℤ) - 1 ≠ (ru.1.nCols : ℤ) - 1 →
      (LoadTrajectory fs fp q).1 = .error (.schemaErrorCols "-affine.csv"
        ((ru.1.nCols : ℤ) - 1 + 1) ra.1.nCols)) ∧
    (∀ (fs : String → Option CsvFile) (fp : String) (q : Bool)
        (rx ru rk ra : MatrixXd × ℚ),
      loadMatrixPure (fs (fp ++ "-x.csv")) 0 = .ok rx →
      loadMatrixPure (fs (fp ++ "-u.csv")) rx.2 = .ok ru →
      loadMatrixPure (fs (fp ++ "-controller.csv")) ru.2 = .ok rk →
      loadMatrixPure (fs (fp ++ "-affine.csv")) rk.2 = .ok ra →
      (rk.1.nCols : ℤ) - 1 = ((rx.1.nCols : ℤ) - 1) * ((ru.1.nCols : ℤ) - 1) →
      (ra.1.nCols : ℤ) - 1 = (ru.1.nCols : ℤ) - 1 →
      (rx.1.rows.length ≠ ru.1.rows.length ∨
       rx.1.rows.length ≠ rk.1.rows.length ∨
       rx.1.rows.length ≠ ra.1.rows.length) →
      (LoadTrajectory fs fp q).1 = .error (.schemaErrorRows rx.1.rows.length
        ru.1.rows.length rk.1.rows.length ra.1.rows.length)) := by
  refine ⟨?_, ?_, ?_, ?_⟩
  · intro fs fp q traj h
    rw [LoadTrajectory_fst] at h
    obtain ⟨rx, ru, rk, ra, hx, hu, hk, ha, hsc, hxp, hup, hkp, hap, hdim,
      hudim, hro⟩ := LoadTrajectoryPure_ok h
    obtain ⟨e1, e2, e3, e4, e5⟩ := (schemaChecks_none_iff _ _ _ _).mp hsc
    rw [hxp, hup, hkp, hap, hdim, hudim]
    exact ⟨e1, e2, rfl, rfl, e3, e4, e5⟩
  · intro fs fp q rx ru rk ra hx hu hk ha hmis
    rw [LoadTrajectory_fst]
    unfold LoadTrajectoryPure
    rw [hx]; simp only [exceptBind_ok]
    rw [hu]; simp only [exceptBind_ok]
    rw [hk]; simp only [exceptBind_ok]
    rw [ha]; simp only [exceptBind_ok]
    have hsc : schemaChecks rx.1 ru.1 rk.1 ra.1 =
        some (.schemaErrorCols "-controller.csv"
          (((rx.1.nCols : ℤ) - 1) * ((ru.1.nCols : ℤ) - 1) + 1) rk.1.nCols) := by
      unfold schemaChecks
      rw [if_pos hmis]
    rw [hsc]
  · intro fs fp q rx ru rk ra hx hu hk ha hkeq hmis
    rw [LoadTrajectory_fst]
    unfold LoadTrajectoryPure
    rw [hx]; simp only [exceptBind_ok]
    rw [hu]; simp only [exceptBind_ok]
    rw [hk]; simp only [exceptBind_ok]
    rw [ha]; simp only [exceptBind_ok]
    have hsc : schemaChecks rx.1 ru.1 rk.1 ra.1 =
        some (.schemaErrorCols "-affine.csv"
          ((ru.1.nCols : ℤ) - 1 + 1) ra.1.nCols) := by
      unfold schemaChecks
      rw [if_neg (by simp [hkeq]), if_pos hmis]
    rw [hsc]
  · intro fs fp q rx ru rk ra hx hu hk ha hkeq haeq hmis
    rw [LoadTrajectory_fst]
    unfold LoadTrajectoryPure
    rw [hx]; simp only [exceptBind_ok]
    rw [hu]; simp only [exceptBind_ok]
    rw [hk]; simp only [exceptBind_ok]
    rw [ha]; simp only [exceptBind_ok]
    have hsc : schemaChecks rx.1 ru.1 rk.1 ra.1 =
        some (.schemaErrorRows rx.1.rows.length ru.1.rows.length
          rk.1.rows.length ra.1.rows.length) := by
      unfold schemaChecks
      rw [if_neg (by simp [hkeq]), if_neg (by simp [haeq]), if_pos hmis]
    rw [hsc]

/-- C5 witness: the loadable `fs1` trajectory satisfies every equality, and
the `fs5` fixture, whose gain table has 3 columns where
`1*1 + 1 = 2` are expected, dies with exactly that `SchemaError`. -/
theorem C5_witness :
    ((LoadTrajectory fs1 "aaaaa" true).1 = .ok traj1 ∧
     ((traj1.kpoints.nCols : ℤ) - 1 = traj1.dimension * traj1.udimension ∧
      (traj1.affine_points.nCols : ℤ) - 1 = traj1.udimension ∧
      traj1.dimension = (traj1.xpoints.nCols : ℤ) - 1 ∧
      traj1.udimension = (traj1.upoints.nCols : ℤ) - 1 ∧
      traj1.xpoints.rows.length = traj1.upoints.rows.length ∧
      traj1.xpoints.rows.length = traj1.kpoints.rows.length ∧
      traj1.xpoints.rows.length = traj1.affine_points.rows.length)) ∧
    (LoadTrajectory fs5 "eeeee" true).1 =
      .error (.schemaErrorCols "-controller.csv" 2 3) := by
  have hload : (LoadTrajectory fs1 "aaaaa" true).1 = .ok traj1 := by
    rw [LoadTrajectory_fst]; exact load_fs1
  refine ⟨⟨hload, C5_schema_validation.1 fs1 "aaaaa" true traj1 hload⟩, ?_⟩
  have h := C5_schema_validation.2.1 fs5 "eeeee" true
    (⟨[[0, 0]], 2⟩, 0) (⟨[[0, 1]], 2⟩, 0) (⟨[[0, 5, 6]], 3⟩, 0)
    (⟨[[0, 0]], 2⟩, 0) rfl rfl rfl rfl (by norm_num)
  norm_num at h
  exact h

/-- C6: for every successfully loaded trajectory, the trajectory is
time-invariant iff every gain-table row is numerically identical to every
other row (the `IsTimeInvariant` predicate is modelled from the spec since
`Trajectory.hpp` is not among the sources), and the rollout table is
loaded iff the trajectory is time-invariant. -/
theorem C6_rollout_iff_time_invariant (fs : String → Option CsvFile)
    (fp : String) (q : Bool) (traj : Trajectory)
    (hload : (LoadTrajectory fs fp q).1 = .ok traj) :
    (IsTimeInvariant traj.kpoints = true ↔
      ∀ r ∈ traj.kpoints.rows, ∀ s ∈ traj.kpoints.rows, r = s) ∧
    (traj.xpoints_rollout.isSome = true ↔
      IsTimeInvariant traj.kpoints = true) := by
  rw [LoadTrajectory_fst] at hload
  obtain ⟨rx, ru, rk, ra, hx, hu, hk, ha, hsc, hxp, hup, hkp, hap, hdim,
    hudim, hro⟩ := LoadTrajectoryPure_ok hload
  refine ⟨IsTimeInvariant_iff traj.kpoints, ?_⟩
  rw [hkp]
  rcases hro with ⟨hti, rr, hrr, hsome, hdt⟩ | ⟨hti, hnone, hdt⟩
  · rw [hsome, hti]; simp
  · rw [hnone, hti]; simp

/-- C6 witness: the loadable trajectory `traj1` has two distinct gain rows,
is therefore not time-invariant, and indeed carries no rollout table. -/
theorem C6_witness :
    (LoadTrajectory fs1 "aaaaa" true).1 = .ok traj1 ∧
    ((IsTimeInvariant traj1.kpoints = true ↔
       ∀ r ∈ traj1.kpoints.rows, ∀ s ∈ traj1.kpoints.rows, r = s) ∧
     (traj1.xpoints_rollout.isSome = true ↔
       IsTimeInvariant traj1.kpoints = true)) := by
  have hload : (LoadTrajectory fs1 "aaaaa" true).1 = .ok traj1 := by
    rw [LoadTrajectory_fst]; exact load_fs1
  exact ⟨hload, C6_rollout_iff_time_invariant fs1 "aaaaa" true traj1 hload⟩

/-- C7: for every successfully loaded trajectory (with its derived
dimensions nonnegative and the gain table rectangular, as the external
table reader guarantees) and every query time whose mapped row index is in
range, `GetGainMatrix` returns a `controlDim × stateDim` matrix whose row
`i` consists of columns `i*stateDim + 1` through `i*stateDim + stateDim`
of the gain-table row at `GetIndexFromTime(t)` (entry `j` of row `i` is
gain column `i*stateDim + 1 + j`). -/
theorem C7_gain_matrix_unpacking (fs : String → Option CsvFile)
    (fp : String) (q : Bool) (traj : Trajectory)
    (hload : (LoadTrajectory fs fp q).1 = .ok traj)
    (hdim : 0 ≤ traj.dimension) (hudim : 0 ≤ traj.udimension)
    (hrect : ∀ row ∈ traj.kpoints.rows, row.length = traj.kpoints.nCols)
    (t : ℚ)
    (hidx : (GetIndexFromTime traj t false).toNat <
      traj.kpoints.rows.length) :
    (GetGainMatrix traj t).length = traj.udimension.toNat ∧
    ∀ i, i < traj.udimension.toNat →
      ((GetGainMatrix traj t).getD i []).length = traj.dimension.toNat ∧
      ∀ j, j < traj.dimension.toNat →
        ((GetGainMatrix traj t).getD i []).getD j 0 =
          (traj.kpoints.rows.getD
              (GetIndexFromTime traj t false).toNat []).getD
            (i * traj.dimension.toNat + 1 + j) 0 := by
  rw [LoadTrajectory_fst] at hload
  obtain ⟨rx, ru, rk, ra, hx, hu, hk, ha, hsc, hxp, hup, hkp, hap, hdimx,
    hudimx, hro⟩ := LoadTrajectoryPure_ok hload
  obtain ⟨e1, _, _, _, _⟩ := (schemaChecks_none_iff _ _ _ _).mp hsc
  have hD : (traj.dimension.toNat : ℤ) = traj.dimension :=
    Int.toNat_of_nonneg hdim
  have hU : (traj.udimension.toNat : ℤ) = traj.udimension :=
    Int.toNat_of_nonneg hudim
  have hcols : traj.kpoints.nCols =
      traj.dimension.toNat * traj.udimension.toNat + 1 := by
    have h1 : (traj.kpoints.nCols : ℤ) - 1 =
        traj.dimension * traj.udimension := by
      rw [hkp, hdimx, hudimx]; exact e1
    have h2 : (traj.kpoints.nCols : ℤ) =
        ((traj.dimension.toNat * traj.udimension.toNat + 1 : ℕ) : ℤ) := by
      push_cast
      rw [hD, hU]
      linarith
    exact_mod_cast h2
  have hkmem : traj.kpoints.rows.getD
      (GetIndexFromTime traj t false).toNat [] ∈ traj.kpoints.rows := by
    rw [List.getD_eq_getElem?_getD, List.getElem?_eq_getElem hidx]
    exact List.getElem_mem hidx
  have hklen : (traj.kpoints.rows.getD
      (GetIndexFromTime traj t false).toNat []).length =
      traj.dimension.toNat * traj.udimension.toNat + 1 :=
    (hrect _ hkmem).trans hcols
  unfold GetGainMatrix segment
  refine ⟨by simp, ?_⟩
  intro i hi
  have hrow : (((List.range traj.udimension.toNat).map fun i =>
      ((traj.kpoints.rows.getD (GetIndexFromTime traj t false).toNat
        []).drop (i * traj.dimension.toNat + 1)).take
        traj.dimension.toNat).getD i []) =
      ((traj.kpoints.rows.getD (GetIndexFromTime traj t false).toNat
        []).drop (i * traj.dimension.toNat + 1)).take
        traj.dimension.toNat := by
    rw [List.getD_eq_getElem?_getD, List.getElem?_map,
      List.getElem?_range hi]
    rfl
  have hmul : i * traj.dimension.toNat + traj.dimension.toNat ≤
      traj.dimension.toNat * traj.udimension.toNat := by
    calc i * traj.dimension.toNat + traj.dimension.toNat
        = (i + 1) * traj.dimension.toNat := by ring
      _ ≤ traj.udimension.toNat * traj.dimension.toNat :=
          Nat.mul_le_mul_right _ hi
      _ = traj.dimension.toNat * traj.udimension.toNat :=
          Nat.mul_comm _ _
  rw [hrow]
  constructor
  · rw [List.length_take, List.length_drop, hklen]
    omega
  · intro j hj
    rw [List.getD_eq_getElem?_getD, List.getElem?_take, if_pos hj,
      List.getElem?_drop, List.getD_eq_getElem?_getD,
      List.getD_eq_getElem?_getD]

/-- C7 witness: on the loaded `traj1` (`stateDim = controlDim = 1`) at
`t = 0` the mapped index is 0 and the gain matrix is the 1 × 1 slice of
gain column 1, namely `[[5]]`. -/
theorem C7_witness :
    (LoadTrajectory fs1 "aaaaa" true).1 = .ok traj1 ∧
    (GetIndexFromTime traj1 0 false).toNat < traj1.kpoints.rows.length ∧
    ((GetGainMatrix traj1 0).length = traj1.udimension.toNat ∧
     ∀ i, i < traj1.udimension.toNat →
       ((GetGainMatrix traj1 0).getD i []).length = traj1.dimension.toNat ∧
       ∀ j, j < traj1.dimension.toNat →
         ((GetGainMatrix traj1 0).getD i []).getD j 0 =
           (traj1.kpoints.rows.getD
               (GetIndexFromTime traj1 0 false).toNat []).getD
             (i * traj1.dimension.toNat + 1 + j) 0) := by
  have hload : (LoadTrajectory fs1 "aaaaa" true).1 = .ok traj1 := by
    rw [LoadTrajectory_fst]; exact load_fs1
  have hidx : (GetIndexFromTime traj1 0 false).toNat <
      traj1.kpoints.rows.length := by
    have h0 : GetIndexFromTime traj1 0 false = 0 := by
      unfold GetIndexFromTime GetIndexFromTimeCore
      norm_num [timeAt, traj1]
    rw [h0]
    norm_num [traj1]
  exact ⟨hload, hidx,
    C7_gain_matrix_unpacking fs1 "aaaaa" true traj1 hload
      (by norm_num [traj1]) (by norm_num [traj1])
      (by intro row hrow; simp [traj1] at hrow; rcases hrow with h | h <;>
        simp [h, traj1])
      0 hidx⟩

/-- C8: the spec asserts that an unreadable table file or malformed header
is a fatal `IOError`.  In the code (lines 91-95) a NULL header only prints
the parser message and returns, leaving the matrix empty; the load goes on
and can even succeed: with `-x.csv` unreadable and header-only `-u.csv`,
`-controller.csv`, `-affine.csv` (one column each), every schema check
passes (`dimension_ = -1`, `udimension_ = 0`) and a trajectory is
constructed, under both values of `quiet`. -/
theorem C8_unreadable_file_not_fatal :
    fs8 ("ddddd" ++ "-x.csv") = none ∧
    (LoadTrajectory fs8 "ddddd" true).1 = .ok traj8 ∧
    (LoadTrajectory fs8 "ddddd" false).1 = .ok traj8 := by
  refine ⟨rfl, ?_, ?_⟩ <;> rw [LoadTrajectory_fst] <;> exact load_fs8

/-- C9: for every filesystem and filename stem, loading with `quiet = true`
and with `quiet = false` yield the identical outcome — the same trajectory
on success and the same error otherwise; `quiet` only gates `std::cout`
lines (30-33 and 78-80). -/
theorem C9_quiet_never_changes_outcome (fs : String → Option CsvFile)
    (fp : String) :
    (LoadTrajectory fs fp true).1 = (LoadTrajectory fs fp false).1 := by
  rw [LoadTrajectory_fst, LoadTrajectory_fst]

/-- C10: the spacing check (lines 117-126) fires only for row indices 2 and
beyond, so a table with at most two data rows always loads without a
spacing error, whatever its timestamps; the resulting `dt_` is the input
one for fewer than two rows and `t[1] - t[0]` for exactly two. -/
theorem C10_at_most_two_rows_never_spacing_error (f : CsvFile) (dtIn : ℚ)
    (h : f.rows.length ≤ 2) :
    loadMatrixPure (some f) dtIn =
      .ok (⟨f.rows, f.headerCols⟩,
        if f.rows.length ≤ 1 then dtIn
        else timeAt f.rows 1 - timeAt f.rows 0) := by
  have hstep : loadMatrixPure (some f) dtIn =
      match checkFrom f.rows dtIn 0 f.rows.length with
      | .error e => .error e
      | .ok dtOut => .ok (⟨f.rows, f.headerCols⟩, dtOut) := rfl
  have hck : checkFrom f.rows dtIn 0 f.rows.length =
      .ok (if f.rows.length ≤ 1 then dtIn
        else timeAt f.rows 1 - timeAt f.rows 0) := by
    rcases hr : f.rows with _ | ⟨r0, _ | ⟨r1, _ | ⟨r2, rs⟩⟩⟩
    · simp [checkFrom]
    · simp [checkFrom, rowStep]
    · simp [checkFrom, rowStep]
    · rw [hr] at h; simp at h
  rw [hstep, hck]

/-- C10 witness: a two-row table whose timestamps jump from 0 to 100 loads
without any error. -/
theorem C10_witness :
    (⟨1, [[0], [100]]⟩ : CsvFile).rows.length ≤ 2 ∧
    loadMatrixPure (some (⟨1, [[0], [100]]⟩ : CsvFile)) 0 =
      .ok (⟨[[0], [100]], 1⟩, 100) := by
  constructor
  · norm_num
  · rw [C10_at_most_two_rows_never_spacing_error ⟨1, [[0], [100]]⟩ 0
      (by norm_num)]
    norm_num [timeAt]

end Flight
